import Mathlib

/-!
Verification of the pgoutput logical-replication message decoder
(`src/parse.rs`) against its natural-language specification.

The decoder is embedded shallowly: the byte cursor of `impl Decoder for
&[u8]` becomes explicit state passing over `List Nat` (one `Nat` per byte),
and every outcome of the Rust code is made explicit in the result type:

* `RtError.unknownMessageType b` models the single `Err` value the Rust
  `parse` function ever returns (the unknown-tag arm);
* `RtError.panicked k` models a Rust panic (process abort): buffer underrun
  inside `bytes::Buf` getters, the failed `assert!` in `get_rowinfo`, the
  `panic!` on an unknown tuple flag, the UTF-8 `unwrap` in `get_string`,
  the out-of-range slice in `get_tupledata`, the `src[0]` index on an empty
  input, and the overflowing `DateTime + Duration` in `get_timestamp`.

Strings are kept as their UTF-8 byte sequences (`List Nat`); `utf8Valid`
models the validity check performed by `std::str::from_utf8`.  Timestamps
are microseconds since the Unix epoch; `chronoMaxMicros` is the largest
instant representable by the `chrono` crate (year 262143), beyond which
`DateTime + Duration` panics.
-/

namespace Pg

/-- A byte buffer: the `&[u8]` slice, one `Nat` per byte. -/
abbrev Buffer := List Nat

/-- The distinct ways the Rust code can abort the process (panic). -/
inductive PanicKind where
  | bufUnderflow
  | invalidUtf8
  | assertFailed
  | unknownFlag (b : Nat)
  | indexOutOfBounds
  | dateTimeOverflow
deriving DecidableEq, Repr

/-- Outcome classification for the embedded code: either the one error the
Rust `parse` actually returns to its caller (`unknownMessageType`), or a
panic, which in Rust terminates the process. -/
inductive RtError where
  | panicked (k : PanicKind)
  | unknownMessageType (b : Nat)
deriving DecidableEq, Repr

/-- Big-endian read of `k` bytes, as performed by the `bytes::Buf` getters
`get_u8` / `get_u16` / `get_u32` / `get_u64`, which panic when fewer than
`k` bytes remain. -/
def readBe : Nat → Buffer → Except RtError (Nat × Buffer)
  | 0, buf => .ok (0, buf)
  | _ + 1, [] => .error (.panicked .bufUnderflow)
  | k + 1, b :: r =>
    match readBe k r with
    | .ok (v, r2) => .ok (b * 256 ^ k + v, r2)
    | .error e => .error e

/-- `fn get_bool`: one byte, compared against zero (panics when empty). -/
def get_bool (buf : Buffer) : Except RtError (Bool × Buffer) :=
  match buf with
  | [] => .error (.panicked .bufUnderflow)
  | b :: r => .ok (b != 0, r)

/-- The `read_until(0, ..)` call inside `fn get_string`: consume bytes up
to and including the first zero byte, or the whole buffer when no zero
byte occurs (a `BufRead::read_until` reaching end of input is `Ok`). -/
def readUntilZero : Buffer → (List Nat × Buffer)
  | [] => ([], [])
  | b :: r =>
    if b = 0 then ([0], r)
    else
      let p := readUntilZero r
      (b :: p.1, p.2)

/-- A UTF-8 continuation byte, `0x80..0xBF`. -/
def isCont (b : Nat) : Bool := 128 ≤ b && b < 192

/-- UTF-8 validity of a byte sequence, exactly as checked by
`std::str::from_utf8` (RFC 3629: no overlong forms, no surrogates, no
code points above `U+10FFFF`). -/
def utf8Valid : List Nat → Bool
  | [] => true
  | b :: rest =>
    if b < 128 then utf8Valid rest
    else if b < 194 then false
    else if b < 224 then
      match rest with
      | b2 :: r => isCont b2 && utf8Valid r
      | [] => false
    else if b < 240 then
      match rest with
      | b2 :: b3 :: r =>
        (if b = 224 then 160 ≤ b2 && b2 < 192
         else if b = 237 then 128 ≤ b2 && b2 < 160
         else isCont b2) && (isCont b3 && utf8Valid r)
      | _ => false
    else if b < 245 then
      match rest with
      | b2 :: b3 :: b4 :: r =>
        (if b = 240 then 144 ≤ b2 && b2 < 192
         else if b = 244 then 128 ≤ b2 && b2 < 144
         else isCont b2) && (isCont b3 && (isCont b4 && utf8Valid r))
      | _ => false
    else false

/-- `fn get_string`: `read_until(0, ..)`, then `Vec::pop` (which removes
the last byte collected, whether or not it is the zero terminator, and is
a no-op on an empty vector), then `from_utf8(..).unwrap()` which panics on
invalid UTF-8. -/
def get_string (buf : Buffer) : Except RtError (List Nat × Buffer) :=
  let p := readUntilZero buf
  let s := p.1.dropLast
  if utf8Valid s then .ok (s, p.2) else .error (.panicked .invalidUtf8)

/-- Days from 0001-01-01 to `y`-01-01 in the proleptic Gregorian calendar. -/
def daysBeforeYear (y : Nat) : Nat :=
  365 * (y - 1) + (y - 1) / 4 + (y - 1) / 400 - (y - 1) / 100

/-- The PostgreSQL epoch 2000-01-01T00:00:00Z in microseconds since the
Unix epoch: the `Utc.ymd(2000, 1, 1).and_hms(0, 0, 0)` origin of
`fn get_timestamp`. -/
def pgEpochMicros : Nat :=
  (daysBeforeYear 2000 - daysBeforeYear 1970) * 86400000000

/-- The largest instant `chrono` can represent (262143-12-31T23:59:59.999999,
microsecond precision), in microseconds since the Unix epoch.  Adding a
`Duration` that lands past this makes `DateTime + Duration` panic. -/
def chronoMaxMicros : Nat :=
  (daysBeforeYear 262144 - 1 - daysBeforeYear 1970) * 86400000000 + 86399999999

/-- `fn get_timestamp`: 8 bytes big endian as microseconds, added to the
fixed epoch 2000-01-01T00:00:00Z.  The addition panics when the result
exceeds the `chrono` range. -/
def get_timestamp (buf : Buffer) : Except RtError (Nat × Buffer) :=
  match readBe 8 buf with
  | .error e => .error e
  | .ok (n, r) =>
    if pgEpochMicros + n ≤ chronoMaxMicros then .ok (pgEpochMicros + n, r)
    else .error (.panicked .dateTimeOverflow)

/-- `get_i32` from `bytes::Buf`: 4 bytes big endian, reinterpreted as a
signed 32-bit integer. -/
def get_i32 (buf : Buffer) : Except RtError (Int × Buffer) :=
  match readBe 4 buf with
  | .error e => .error e
  | .ok (n, r) =>
    .ok (if n < 2147483648 then (n : Int) else (n : Int) - 4294967296, r)

/-- `fn get_rowinfo`: `assert!(remaining >= 1)` (panic on an empty buffer),
then peek one byte; consume it and return `true` when it equals the tag,
otherwise leave the cursor unmoved and return `false`. -/
def get_rowinfo (tag : Nat) (buf : Buffer) : Except RtError (Bool × Buffer) :=
  match buf with
  | [] => .error (.panicked .assertFailed)
  | b :: r => if b = tag then .ok (true, r) else .ok (false, b :: r)

/-- One column slot of a row image (`struct Tuple`). -/
structure Tuple where
  flag : Nat
  value : Option (List Nat)
deriving DecidableEq, Repr

/-- The loop body of `fn get_tupledata`: `count` iterations, each reading a
flag byte (110 = "n", 117 = "u", 116 = "t"); the "t" case reads a 4-byte
length then slices that many bytes (`&chunk[..vsize]` panics when the
declared length exceeds the remaining bytes); any other flag byte hits
`panic!("Unknown data type flag ..")`. -/
def readTuples : Nat → Buffer → Except RtError (List Tuple × Buffer)
  | 0, buf => .ok ([], buf)
  | k + 1, buf =>
    match buf with
    | [] => .error (.panicked .bufUnderflow)
    | flag :: r =>
      if flag = 110 || flag = 117 then
        match readTuples k r with
        | .ok (ts, r2) => .ok (⟨flag, none⟩ :: ts, r2)
        | .error e => .error e
      else if flag = 116 then
        match readBe 4 r with
        | .error e => .error e
        | .ok (vsize, r2) =>
          if vsize ≤ r2.length then
            match readTuples k (r2.drop vsize) with
            | .ok (ts, r3) => .ok (⟨flag, some (r2.take vsize)⟩ :: ts, r3)
            | .error e => .error e
          else .error (.panicked .indexOutOfBounds)
      else .error (.panicked (.unknownFlag flag))

/-- `fn get_tupledata`: a 2-byte big-endian count followed by that many
tuple entries. -/
def get_tupledata (buf : Buffer) : Except RtError (List Tuple × Buffer) :=
  match readBe 2 buf with
  | .error e => .error e
  | .ok (n, r) => readTuples n r

/-- Schema metadata for one column (`struct Column`). -/
structure Column where
  key : Bool
  name : List Nat
  pg_type : Nat
  mode : Nat
deriving DecidableEq, Repr

/-- The loop body of `fn get_columns`: `count` entries, each a bool key
flag, a zero-terminated name, and two 4-byte integers. -/
def readColumns : Nat → Buffer → Except RtError (List Column × Buffer)
  | 0, buf => .ok ([], buf)
  | k + 1, buf =>
    match get_bool buf with
    | .error e => .error e
    | .ok (key, r1) =>
      match get_string r1 with
      | .error e => .error e
      | .ok (name, r2) =>
        match readBe 4 r2 with
        | .error e => .error e
        | .ok (ty, r3) =>
          match readBe 4 r3 with
          | .error e => .error e
          | .ok (mode, r4) =>
            match readColumns k r4 with
            | .ok (cs, r5) => .ok (⟨key, name, ty, mode⟩ :: cs, r5)
            | .error e => .error e

/-- `fn get_columns`: a 2-byte big-endian count followed by that many
column entries. -/
def get_columns (buf : Buffer) : Except RtError (List Column × Buffer) :=
  match readBe 2 buf with
  | .error e => .error e
  | .ok (n, r) => readColumns n r

/-- `struct Begin`.  The timestamp is in microseconds since the Unix
epoch, mirroring the absolute `DateTime<Utc>` of the Rust record. -/
structure Begin where
  lsn : Nat
  timestamp : Nat
  xid : Int
deriving DecidableEq, Repr

/-- `struct Commit`. -/
structure Commit where
  flags : Nat
  lsn : Nat
  transaction_lsn : Nat
  timestamp : Nat
deriving DecidableEq, Repr

/-- `struct Relation`.  The Rust field `namespace` is a Lean keyword and
is rendered `nspace`. -/
structure Relation where
  id : Nat
  nspace : List Nat
  name : List Nat
  replica : Nat
  columns : List Column
deriving DecidableEq, Repr

/-- `Relation::is_empty`: note that the Rust code tests `id`, `name`,
`replica` and `columns`, but not `namespace`. -/
def Relation.is_empty (r : Relation) : Bool :=
  r.id == 0 && r.name.isEmpty && r.replica == 0 && r.columns.isEmpty

/-- `struct Type` (named `TypeMsg` here because `Type` is a Lean keyword). -/
structure TypeMsg where
  id : Nat
  nspace : List Nat
  name : List Nat
deriving DecidableEq, Repr

/-- `struct Insert`. -/
structure Insert where
  relation_id : Nat
  new : Bool
  row : List Tuple
deriving DecidableEq, Repr

/-- `struct Update`. -/
structure Update where
  relation_id : Nat
  old : Bool
  key : Bool
  new : Bool
  old_row : Option (List Tuple)
  row : List Tuple
deriving DecidableEq, Repr

/-- `struct Delete`. -/
structure Delete where
  relation_id : Nat
  key : Bool
  old : Bool
  row : List Tuple
deriving DecidableEq, Repr

/-- `struct Origin`. -/
structure Origin where
  lsn : Nat
  name : List Nat
deriving DecidableEq, Repr

/-- `enum LogicalReplicationMessage`. -/
inductive LogicalReplicationMessage where
  | begin (m : Begin)
  | commit (m : Commit)
  | origin (m : Origin)
  | relation (m : Relation)
  | typeMsg (m : TypeMsg)
  | insert (m : Insert)
  | update (m : Update)
  | delete (m : Delete)
deriving DecidableEq, Repr

/-- Sequencing of the cursor-passing decoder: run the first read; on
success feed its value and the advanced cursor to the continuation, on
failure (returned error or panic) abort the whole decode. -/
def andThen (x : Except RtError (α × Buffer))
    (f : α → Buffer → Except RtError β) : Except RtError β :=
  match x with
  | .error e => .error e
  | .ok (a, r) => f a r

/-- The "B" arm of `fn parse`. -/
def parseBegin (buf : Buffer) : Except RtError LogicalReplicationMessage :=
  andThen (readBe 8 buf) fun lsn b1 =>
  andThen (get_timestamp b1) fun ts b2 =>
  andThen (get_i32 b2) fun xid _ =>
  .ok (.begin ⟨lsn, ts, xid⟩)

/-- The "C" arm of `fn parse`. -/
def parseCommit (buf : Buffer) : Except RtError LogicalReplicationMessage :=
  andThen (readBe 1 buf) fun flags b1 =>
  andThen (readBe 8 b1) fun lsn b2 =>
  andThen (readBe 8 b2) fun tlsn b3 =>
  andThen (get_timestamp b3) fun ts _ =>
  .ok (.commit ⟨flags, lsn, tlsn, ts⟩)

/-- The "O" arm of `fn parse`. -/
def parseOrigin (buf : Buffer) : Except RtError LogicalReplicationMessage :=
  andThen (readBe 8 buf) fun lsn b1 =>
  andThen (get_string b1) fun name _ =>
  .ok (.origin ⟨lsn, name⟩)

/-- The "R" arm of `fn parse`. -/
def parseRelation (buf : Buffer) : Except RtError LogicalReplicationMessage :=
  andThen (readBe 4 buf) fun id b1 =>
  andThen (get_string b1) fun ns b2 =>
  andThen (get_string b2) fun name b3 =>
  andThen (readBe 1 b3) fun replica b4 =>
  andThen (get_columns b4) fun cols _ =>
  .ok (.relation ⟨id, ns, name, replica, cols⟩)

/-- The "Y" arm of `fn parse`. -/
def parseType (buf : Buffer) : Except RtError LogicalReplicationMessage :=
  andThen (readBe 4 buf) fun id b1 =>
  andThen (get_string b1) fun ns b2 =>
  andThen (get_string b2) fun name _ =>
  .ok (.typeMsg ⟨id, ns, name⟩)

/-- The "I" arm of `fn parse`. -/
def parseInsert (buf : Buffer) : Except RtError LogicalReplicationMessage :=
  andThen (readBe 4 buf) fun rid b1 =>
  andThen (get_bool b1) fun nw b2 =>
  andThen (get_tupledata b2) fun row _ =>
  .ok (.insert ⟨rid, nw, row⟩)

/-- The "U" arm of `fn parse`: after the markers, a present key or old
marker makes the code decode one tuple row into a local that is dropped
(`let _old_row = ..`); `old_row` in the record is always `None`. -/
def parseUpdate (buf : Buffer) : Except RtError LogicalReplicationMessage :=
  andThen (readBe 4 buf) fun rid b1 =>
  andThen (get_rowinfo 75 b1) fun key b2 =>
  andThen (get_rowinfo 79 b2) fun old b3 =>
  andThen
    (if key || old then
      andThen (get_tupledata b3) fun _oldRow b4 => .ok ((), b4)
    else .ok ((), b3)) fun _ b4 =>
  andThen (get_bool b4) fun nw b5 =>
  andThen (get_tupledata b5) fun row _ =>
  .ok (.update ⟨rid, old, key, nw, none, row⟩)

/-- The "D" arm of `fn parse`. -/
def parseDelete (buf : Buffer) : Except RtError LogicalReplicationMessage :=
  andThen (readBe 4 buf) fun rid b1 =>
  andThen (get_rowinfo 75 b1) fun key b2 =>
  andThen (get_rowinfo 79 b2) fun old b3 =>
  andThen (get_tupledata b3) fun row _ =>
  .ok (.delete ⟨rid, key, old, row⟩)

/-- `fn parse`: `src[0]` (a panic on an empty slice), then dispatch on the
tag byte; 66 = "B", 67 = "C", 79 = "O", 82 = "R", 89 = "Y", 73 = "I",
85 = "U", 68 = "D"; any other byte is returned as an
`Unknown message type` error carrying that byte. -/
def parse (src : Buffer) : Except RtError LogicalReplicationMessage :=
  match src with
  | [] => .error (.panicked .indexOutOfBounds)
  | t :: buf =>
    if t = 66 then parseBegin buf
    else if t = 67 then parseCommit buf
    else if t = 79 then parseOrigin buf
    else if t = 82 then parseRelation buf
    else if t = 89 then parseType buf
    else if t = 73 then parseInsert buf
    else if t = 85 then parseUpdate buf
    else if t = 68 then parseDelete buf
    else .error (.unknownMessageType t)

/-! ### A wire encoder following the field table of spec section 4.2

Built for testing the decoder: big-endian multi-byte integers,
zero-terminated UTF-8 strings, length-prefixed tuple values. -/

/-- `k` bytes of `n`, big endian (the numeric value encoded is
`n % 256 ^ k`). -/
def beBytes : Nat → Nat → List Nat
  | 0, _ => []
  | k + 1, n => (n / 256 ^ k) % 256 :: beBytes k n

/-- A boolean encoded as one byte. -/
def encBool (b : Bool) : List Nat := [if b then 1 else 0]

/-- A zero-terminated string. -/
def encString (s : List Nat) : List Nat := s ++ [0]

/-- A timestamp encoded as 8 bytes of microseconds since the PostgreSQL
epoch. -/
def encTimestamp (ts : Nat) : List Nat := beBytes 8 (ts - pgEpochMicros)

/-- A signed 32-bit integer, two-complement big endian. -/
def encI32 (x : Int) : List Nat :=
  beBytes 4 (if 0 ≤ x then x.toNat else (x + 4294967296).toNat)

/-- One tuple entry: flag byte, then (for flag "t") a 4-byte length prefix
and the value bytes. -/
def encTuple (t : Tuple) : List Nat :=
  match t.value with
  | none => [t.flag]
  | some v => t.flag :: (beBytes 4 v.length ++ v)

/-- A tuple row: 2-byte count then the entries. -/
def encTuples (ts : List Tuple) : List Nat :=
  beBytes 2 ts.length ++ (ts.map encTuple).flatten

/-- One column entry. -/
def encColumn (c : Column) : List Nat :=
  encBool c.key ++ (encString c.name ++ (beBytes 4 c.pg_type ++ beBytes 4 c.mode))

/-- A column list: 2-byte count then the entries. -/
def encColumns (cs : List Column) : List Nat :=
  beBytes 2 cs.length ++ (cs.map encColumn).flatten

/-- An optional one-byte marker. -/
def encMarker (b : Bool) (tag : Nat) : List Nat := if b then [tag] else []

/-- Encoding of a whole message per the field table of spec section 4.2.
For Update, the table emits the markers and, when either is present, one
legacy old-row payload (which the decoder discards); the encoder emits an
empty tuple row there since the record never retains one. -/
def encode : LogicalReplicationMessage → List Nat
  | .begin m =>
    66 :: (beBytes 8 m.lsn ++ (encTimestamp m.timestamp ++ encI32 m.xid))
  | .commit m =>
    67 :: (beBytes 1 m.flags ++ (beBytes 8 m.lsn ++
      (beBytes 8 m.transaction_lsn ++ encTimestamp m.timestamp)))
  | .origin m => 79 :: (beBytes 8 m.lsn ++ encString m.name)
  | .relation m =>
    82 :: (beBytes 4 m.id ++ (encString m.nspace ++ (encString m.name ++
      (beBytes 1 m.replica ++ encColumns m.columns))))
  | .typeMsg m =>
    89 :: (beBytes 4 m.id ++ (encString m.nspace ++ encString m.name))
  | .insert m =>
    73 :: (beBytes 4 m.relation_id ++ (encBool m.new ++ encTuples m.row))
  | .update m =>
    85 :: (beBytes 4 m.relation_id ++ (encMarker m.key 75 ++
      (encMarker m.old 79 ++
        ((if m.key || m.old then encTuples [] else []) ++
          (encBool m.new ++ encTuples m.row)))))
  | .delete m =>
    68 :: (beBytes 4 m.relation_id ++ (encMarker m.key 75 ++
      (encMarker m.old 79 ++ encTuples m.row)))

/-! ### Well-formedness of message values

The conditions under which a message value is faithfully representable on
the wire: fields fit their declared widths, strings are valid UTF-8 with
no embedded zero byte, and timestamps lie in the range the host time
representation supports. -/

/-- A wire-encodable string: valid UTF-8, no embedded zero terminator. -/
def wfString (s : List Nat) : Bool := utf8Valid s && !(s.contains 0)

/-- A well-formed tuple: a valueless null / unchanged-toast entry, or a
text-value entry whose length fits the 4-byte prefix. -/
def Tuple.wf (t : Tuple) : Bool :=
  match t.value with
  | none => t.flag == 110 || t.flag == 117
  | some v => t.flag == 116 && decide (v.length < 256 ^ 4)

/-- A well-formed tuple row: its count fits 2 bytes. -/
def wfRow (ts : List Tuple) : Bool :=
  decide (ts.length < 256 ^ 2) && ts.all Tuple.wf

/-- A well-formed column entry. -/
def Column.wf (c : Column) : Bool :=
  wfString c.name && (decide (c.pg_type < 256 ^ 4) &&
    decide (c.mode < 256 ^ 4))

/-- A well-formed column list: its count fits 2 bytes. -/
def wfColumns (cs : List Column) : Bool :=
  decide (cs.length < 256 ^ 2) && cs.all Column.wf

/-- A timestamp between the PostgreSQL epoch and the maximum instant the
host time representation supports. -/
def wfTs (n : Nat) : Bool :=
  decide (pgEpochMicros ≤ n) && decide (n ≤ chronoMaxMicros)

/-- Well-formedness of a whole message value.  Beyond field widths:
Update retains no old row (`old_row = none`, as the decoder always
produces), and a Delete row count stays below `19200 = 75 * 256` so that
its high count byte cannot be mistaken for an absent "K"/"O" marker. -/
def wfMsg : LogicalReplicationMessage → Bool
  | .begin m =>
    decide (m.lsn < 256 ^ 8) && (wfTs m.timestamp &&
      (decide (-2147483648 ≤ m.xid) && decide (m.xid < 2147483648)))
  | .commit m =>
    decide (m.flags < 256) && (decide (m.lsn < 256 ^ 8) &&
      (decide (m.transaction_lsn < 256 ^ 8) && wfTs m.timestamp))
  | .origin m => decide (m.lsn < 256 ^ 8) && wfString m.name
  | .relation m =>
    decide (m.id < 256 ^ 4) && (wfString m.nspace && (wfString m.name &&
      (decide (m.replica < 256) && wfColumns m.columns)))
  | .typeMsg m =>
    decide (m.id < 256 ^ 4) && (wfString m.nspace && wfString m.name)
  | .insert m => decide (m.relation_id < 256 ^ 4) && wfRow m.row
  | .update m =>
    decide (m.relation_id < 256 ^ 4) && (m.old_row == none && wfRow m.row)
  | .delete m =>
    decide (m.relation_id < 256 ^ 4) && (wfRow m.row &&
      decide (m.row.length < 19200))

/-! ### Round-trip lemmas for the primitive readers -/

theorem andThen_ok (a : α) (r : Buffer) (f : α → Buffer → Except RtError β) :
    andThen (.ok (a, r)) f = f a r := rfl

theorem andThen_error (e : RtError) (f : α → Buffer → Except RtError β) :
    andThen (.error e) f = .error e := rfl

theorem readBe_cons (k b : Nat) (r : Buffer) :
    readBe (k + 1) (b :: r) =
      match readBe k r with
      | .ok (v, r2) => .ok (b * 256 ^ k + v, r2)
      | .error e => .error e := rfl

theorem readBe_beBytes (k n : Nat) (rest : Buffer) :
    readBe k (beBytes k n ++ rest) = .ok (n % 256 ^ k, rest) := by
  induction k generalizing n with
  | zero => simp [readBe, beBytes, Nat.mod_one]
  | succ k ih =>
    have hb : beBytes (k + 1) n ++ rest =
        (n / 256 ^ k) % 256 :: (beBytes k n ++ rest) := by
      simp [beBytes]
    rw [hb, readBe_cons, ih]
    have harith : n / 256 ^ k % 256 * 256 ^ k + n % 256 ^ k = n % 256 ^ (k + 1) := by
      have hp : (256 : Nat) ^ (k + 1) = 256 ^ k * 256 := by ring
      rw [hp, Nat.mod_mul]
      ring
    rw [← harith]

theorem readBe_beBytes_lt (k n : Nat) (rest : Buffer) (h : n < 256 ^ k) :
    readBe k (beBytes k n ++ rest) = .ok (n, rest) := by
  rw [readBe_beBytes, Nat.mod_eq_of_lt h]

theorem get_bool_encBool (b : Bool) (rest : Buffer) :
    get_bool (encBool b ++ rest) = .ok (b, rest) := by
  cases b <;> simp [get_bool, encBool]

theorem readUntilZero_cons (b : Nat) (r : Buffer) :
    readUntilZero (b :: r) =
      if b = 0 then ([0], r)
      else (b :: (readUntilZero r).1, (readUntilZero r).2) := rfl

theorem readUntilZero_append (s : List Nat) (rest : Buffer)
    (h : s.contains 0 = false) :
    readUntilZero (s ++ 0 :: rest) = (s ++ [0], rest) := by
  induction s with
  | nil => simp [readUntilZero]
  | cons b tl ih =>
    rw [List.contains_cons, Bool.or_eq_false_iff] at h
    have hb : b ≠ 0 := by
      intro hb0
      subst hb0
      simp at h
    rw [List.cons_append, readUntilZero_cons, if_neg hb, ih h.2]
    simp

theorem get_string_encString (s : List Nat) (rest : Buffer)
    (h1 : utf8Valid s = true) (h2 : s.contains 0 = false) :
    get_string (encString s ++ rest) = .ok (s, rest) := by
  have he : encString s ++ rest = s ++ 0 :: rest := by
    simp [encString]
  rw [he]
  simp only [get_string, readUntilZero_append s rest h2, List.dropLast_concat, h1,
    if_pos]

theorem get_string_wf (s : List Nat) (rest : Buffer) (h : wfString s = true) :
    get_string (encString s ++ rest) = .ok (s, rest) := by
  rw [wfString, Bool.and_eq_true, Bool.not_eq_true'] at h
  exact get_string_encString s rest h.1 h.2

theorem get_timestamp_encTimestamp (ts : Nat) (rest : Buffer)
    (h : wfTs ts = true) :
    get_timestamp (encTimestamp ts ++ rest) = .ok (ts, rest) := by
  rw [wfTs, Bool.and_eq_true, decide_eq_true_eq, decide_eq_true_eq] at h
  obtain ⟨h1, h2⟩ := h
  have hmax : chronoMaxMicros < 256 ^ 8 + pgEpochMicros := by decide
  have hlt : ts - pgEpochMicros < 256 ^ 8 := by omega
  rw [encTimestamp]
  simp only [get_timestamp, readBe_beBytes_lt 8 _ rest hlt]
  have hts : pgEpochMicros + (ts - pgEpochMicros) = ts := by omega
  rw [hts, if_pos h2]

theorem get_i32_encI32 (x : Int) (rest : Buffer)
    (h1 : -2147483648 ≤ x) (h2 : x < 2147483648) :
    get_i32 (encI32 x ++ rest) = .ok (x, rest) := by
  have hp : (256 : Nat) ^ 4 = 4294967296 := by norm_num
  by_cases hx : 0 ≤ x
  · have hlt : x.toNat < 256 ^ 4 := by
      rw [hp]
      omega
    rw [encI32, if_pos hx]
    simp only [get_i32, readBe_beBytes_lt 4 _ rest hlt]
    have hc : x.toNat < 2147483648 := by omega
    rw [if_pos hc]
    have hv : (x.toNat : Int) = x := Int.toNat_of_nonneg hx
    rw [hv]
  · have hge : 2147483648 ≤ (x + 4294967296).toNat := by omega
    have hlt : (x + 4294967296).toNat < 256 ^ 4 := by
      rw [hp]
      omega
    rw [encI32, if_neg hx]
    simp only [get_i32, readBe_beBytes_lt 4 _ rest hlt]
    rw [if_neg (by omega)]
    have hv : ((x + 4294967296).toNat : Int) - 4294967296 = x := by omega
    rw [hv]

theorem get_rowinfo_hit (tag : Nat) (rest : Buffer) :
    get_rowinfo tag (tag :: rest) = .ok (true, rest) := by
  simp [get_rowinfo]

theorem get_rowinfo_miss (tag b : Nat) (rest : Buffer) (h : b ≠ tag) :
    get_rowinfo tag (b :: rest) = .ok (false, b :: rest) := by
  simp [get_rowinfo, h]

theorem readTuples_cons_110 (k : Nat) (r : Buffer) :
    readTuples (k + 1) (110 :: r) =
      match readTuples k r with
      | .ok (ts, r2) => .ok (⟨110, none⟩ :: ts, r2)
      | .error e => .error e := rfl

theorem readTuples_cons_117 (k : Nat) (r : Buffer) :
    readTuples (k + 1) (117 :: r) =
      match readTuples k r with
      | .ok (ts, r2) => .ok (⟨117, none⟩ :: ts, r2)
      | .error e => .error e := rfl

theorem readTuples_cons_116 (k : Nat) (r : Buffer) :
    readTuples (k + 1) (116 :: r) =
      match readBe 4 r with
      | .error e => .error e
      | .ok (vsize, r2) =>
        if vsize ≤ r2.length then
          match readTuples k (r2.drop vsize) with
          | .ok (ts, r3) => .ok (⟨116, some (r2.take vsize)⟩ :: ts, r3)
          | .error e => .error e
        else .error (.panicked .indexOutOfBounds) := rfl

theorem readTuples_enc (ts : List Tuple) (rest : Buffer)
    (h : ts.all Tuple.wf = true) :
    readTuples ts.length ((ts.map encTuple).flatten ++ rest) = .ok (ts, rest) := by
  induction ts with
  | nil => simp [readTuples]
  | cons t tl ih =>
    rw [List.all_cons, Bool.and_eq_true] at h
    obtain ⟨ht, htl⟩ := h
    obtain ⟨flag, value⟩ := t
    cases value with
    | none =>
      rw [Tuple.wf, Bool.or_eq_true, beq_iff_eq, beq_iff_eq] at ht
      have henc : encTuple ⟨flag, none⟩ = [flag] := rfl
      simp only [List.length_cons, List.map_cons, List.flatten_cons, henc,
        List.cons_append, List.singleton_append, List.nil_append]
      rcases ht with hf | hf <;> subst hf
      · rw [readTuples_cons_110, ih htl]
      · rw [readTuples_cons_117, ih htl]
    | some v =>
      rw [Tuple.wf, Bool.and_eq_true, beq_iff_eq, decide_eq_true_eq] at ht
      obtain ⟨hf, hlen⟩ := ht
      subst hf
      have henc : encTuple ⟨116, some v⟩ = 116 :: (beBytes 4 v.length ++ v) := rfl
      simp only [List.length_cons, List.map_cons, List.flatten_cons, henc,
        List.cons_append, List.append_assoc]
      rw [readTuples_cons_116, readBe_beBytes_lt 4 _ _ hlen]
      have hle : v.length ≤ (v ++ ((tl.map encTuple).flatten ++ rest)).length := by
        simp
      simp only [if_pos hle, List.take_left, List.drop_left, ih htl]

theorem get_tupledata_encTuples (ts : List Tuple) (rest : Buffer)
    (h : wfRow ts = true) :
    get_tupledata (encTuples ts ++ rest) = .ok (ts, rest) := by
  rw [wfRow, Bool.and_eq_true, decide_eq_true_eq] at h
  obtain ⟨hlen, hall⟩ := h
  rw [encTuples, List.append_assoc]
  simp only [get_tupledata, readBe_beBytes_lt 2 _ _ hlen]
  exact readTuples_enc ts rest hall

theorem readColumns_succ (k : Nat) (buf : Buffer) :
    readColumns (k + 1) buf =
      match get_bool buf with
      | .error e => .error e
      | .ok (key, r1) =>
        match get_string r1 with
        | .error e => .error e
        | .ok (name, r2) =>
          match readBe 4 r2 with
          | .error e => .error e
          | .ok (ty, r3) =>
            match readBe 4 r3 with
            | .error e => .error e
            | .ok (mode, r4) =>
              match readColumns k r4 with
              | .ok (cs, r5) => .ok (⟨key, name, ty, mode⟩ :: cs, r5)
              | .error e => .error e := rfl

theorem readColumns_enc (cs : List Column) (rest : Buffer)
    (h : cs.all Column.wf = true) :
    readColumns cs.length ((cs.map encColumn).flatten ++ rest) = .ok (cs, rest) := by
  induction cs with
  | nil => simp [readColumns]
  | cons c tl ih =>
    rw [List.all_cons, Bool.and_eq_true] at h
    obtain ⟨hc, htl⟩ := h
    rw [Column.wf, Bool.and_eq_true, Bool.and_eq_true, decide_eq_true_eq,
      decide_eq_true_eq] at hc
    obtain ⟨hname, hty, hmode⟩ := hc
    obtain ⟨key, name, ty, mode⟩ := c
    simp only [List.length_cons, List.map_cons, List.flatten_cons, encColumn,
      List.append_assoc]
    rw [readColumns_succ, get_bool_encBool]
    dsimp only
    rw [get_string_wf name _ hname]
    dsimp only
    rw [readBe_beBytes_lt 4 _ _ hty]
    dsimp only
    rw [readBe_beBytes_lt 4 _ _ hmode]
    dsimp only
    rw [ih htl]

theorem get_columns_encColumns (cs : List Column) (rest : Buffer)
    (h : wfColumns cs = true) :
    get_columns (encColumns cs ++ rest) = .ok (cs, rest) := by
  rw [wfColumns, Bool.and_eq_true, decide_eq_true_eq] at h
  obtain ⟨hlen, hall⟩ := h
  rw [encColumns, List.append_assoc]
  simp only [get_columns, readBe_beBytes_lt 2 _ _ hlen]
  exact readColumns_enc cs rest hall

/-! ### Round-trip lemmas for the dispatch arms -/

theorem encTuples_cons (ts : List Tuple) :
    encTuples ts =
      ts.length / 256 % 256 :: (ts.length % 256 :: (ts.map encTuple).flatten) := by
  simp [encTuples, beBytes, pow_one, pow_zero, Nat.div_one]

theorem get_rowinfo_encTuples_miss (tag : Nat) (ts : List Tuple) (rest : Buffer)
    (h : ts.length / 256 % 256 ≠ tag) :
    get_rowinfo tag (encTuples ts ++ rest) = .ok (false, encTuples ts ++ rest) := by
  rw [encTuples_cons, List.cons_append, get_rowinfo_miss _ _ _ h]

theorem get_rowinfo_encBool (tag : Nat) (b : Bool) (rest : Buffer)
    (h0 : tag ≠ 0) (h1 : tag ≠ 1) :
    get_rowinfo tag (encBool b ++ rest) = .ok (false, encBool b ++ rest) := by
  cases b <;>
    simp [encBool, get_rowinfo, Ne.symm h0, Ne.symm h1]

theorem parseBegin_enc (lsn ts : Nat) (xid : Int) (extra : Buffer)
    (h1 : lsn < 256 ^ 8) (h2 : wfTs ts = true)
    (h3 : -2147483648 ≤ xid) (h4 : xid < 2147483648) :
    parseBegin (beBytes 8 lsn ++ (encTimestamp ts ++ (encI32 xid ++ extra))) =
      .ok (.begin ⟨lsn, ts, xid⟩) := by
  simp only [parseBegin]
  rw [readBe_beBytes_lt 8 _ _ h1, andThen_ok,
    get_timestamp_encTimestamp _ _ h2, andThen_ok,
    get_i32_encI32 _ _ h3 h4, andThen_ok]

theorem parseCommit_enc (flags lsn tlsn ts : Nat) (extra : Buffer)
    (h0 : flags < 256) (h1 : lsn < 256 ^ 8) (h2 : tlsn < 256 ^ 8)
    (h3 : wfTs ts = true) :
    parseCommit (beBytes 1 flags ++ (beBytes 8 lsn ++ (beBytes 8 tlsn ++
      (encTimestamp ts ++ extra)))) = .ok (.commit ⟨flags, lsn, tlsn, ts⟩) := by
  have h0p : flags < 256 ^ 1 := by
    rw [pow_one]
    exact h0
  simp only [parseCommit]
  rw [readBe_beBytes_lt 1 _ _ h0p, andThen_ok, readBe_beBytes_lt 8 _ _ h1,
    andThen_ok, readBe_beBytes_lt 8 _ _ h2, andThen_ok,
    get_timestamp_encTimestamp _ _ h3, andThen_ok]

theorem parseOrigin_enc (lsn : Nat) (name : List Nat) (extra : Buffer)
    (h1 : lsn < 256 ^ 8) (h2 : wfString name = true) :
    parseOrigin (beBytes 8 lsn ++ (encString name ++ extra)) =
      .ok (.origin ⟨lsn, name⟩) := by
  simp only [parseOrigin]
  rw [readBe_beBytes_lt 8 _ _ h1, andThen_ok, get_string_wf _ _ h2, andThen_ok]

theorem parseRelation_enc (id replica : Nat) (ns name : List Nat)
    (cols : List Column) (extra : Buffer)
    (h1 : id < 256 ^ 4) (h2 : wfString ns = true) (h3 : wfString name = true)
    (h4 : replica < 256) (h5 : wfColumns cols = true) :
    parseRelation (beBytes 4 id ++ (encString ns ++ (encString name ++
      (beBytes 1 replica ++ (encColumns cols ++ extra))))) =
      .ok (.relation ⟨id, ns, name, replica, cols⟩) := by
  have h4p : replica < 256 ^ 1 := by
    rw [pow_one]
    exact h4
  simp only [parseRelation]
  rw [readBe_beBytes_lt 4 _ _ h1, andThen_ok, get_string_wf _ _ h2, andThen_ok,
    get_string_wf _ _ h3, andThen_ok, readBe_beBytes_lt 1 _ _ h4p, andThen_ok,
    get_columns_encColumns _ _ h5, andThen_ok]

theorem parseType_enc (id : Nat) (ns name : List Nat) (extra : Buffer)
    (h1 : id < 256 ^ 4) (h2 : wfString ns = true) (h3 : wfString name = true) :
    parseType (beBytes 4 id ++ (encString ns ++ (encString name ++ extra))) =
      .ok (.typeMsg ⟨id, ns, name⟩) := by
  simp only [parseType]
  rw [readBe_beBytes_lt 4 _ _ h1, andThen_ok, get_string_wf _ _ h2, andThen_ok,
    get_string_wf _ _ h3, andThen_ok]

theorem parseInsert_enc (rid : Nat) (nw : Bool) (row : List Tuple)
    (extra : Buffer) (h1 : rid < 256 ^ 4) (h2 : wfRow row = true) :
    parseInsert (beBytes 4 rid ++ (encBool nw ++ (encTuples row ++ extra))) =
      .ok (.insert ⟨rid, nw, row⟩) := by
  simp only [parseInsert]
  rw [readBe_beBytes_lt 4 _ _ h1, andThen_ok, get_bool_encBool, andThen_ok,
    get_tupledata_encTuples _ _ h2, andThen_ok]

theorem parseUpdate_enc (rid : Nat) (key old nw : Bool)
    (oldRow row : List Tuple) (extra : Buffer)
    (h1 : rid < 256 ^ 4) (h2 : wfRow oldRow = true) (h3 : oldRow.length < 19200)
    (h4 : wfRow row = true) :
    parseUpdate (beBytes 4 rid ++ (encMarker key 75 ++ (encMarker old 79 ++
      ((if key || old then encTuples oldRow else []) ++
        (encBool nw ++ (encTuples row ++ extra)))))) =
      .ok (.update ⟨rid, old, key, nw, none, row⟩) := by
  have hK : oldRow.length / 256 % 256 ≠ 79 := by omega
  simp only [parseUpdate]
  rw [readBe_beBytes_lt 4 _ _ h1, andThen_ok]
  cases key <;> cases old <;>
    simp only [encMarker, Bool.false_eq_true, if_false, if_true,
      eq_self_iff_true, Bool.or_self, Bool.true_or,
      Bool.or_true, Bool.false_or, List.nil_append, List.cons_append,
      List.singleton_append]
  · -- no marker: the next byte is the encoded new flag, 0 or 1
    rw [get_rowinfo_encBool 75 nw _ (by decide) (by decide), andThen_ok,
      get_rowinfo_encBool 79 nw _ (by decide) (by decide), andThen_ok]
    simp only [Bool.or_self, Bool.false_eq_true, if_false, andThen_ok]
    rw [get_bool_encBool, andThen_ok, get_tupledata_encTuples _ _ h4, andThen_ok]
  · -- only the old marker 79: missed by the key probe, hit by the old probe
    rw [get_rowinfo_miss 75 79 _ (by decide), andThen_ok, get_rowinfo_hit,
      andThen_ok]
    simp only [Bool.or_true, eq_self_iff_true, if_true]
    rw [get_tupledata_encTuples _ _ h2, andThen_ok, andThen_ok,
      get_bool_encBool, andThen_ok, get_tupledata_encTuples _ _ h4, andThen_ok]
  · -- only the key marker 75: hit, then the old probe sees the legacy payload
    rw [get_rowinfo_hit, andThen_ok,
      get_rowinfo_encTuples_miss 79 oldRow _ hK, andThen_ok]
    simp only [Bool.true_or, eq_self_iff_true, if_true]
    rw [get_tupledata_encTuples _ _ h2, andThen_ok, andThen_ok,
      get_bool_encBool, andThen_ok, get_tupledata_encTuples _ _ h4, andThen_ok]
  · -- both markers present
    rw [get_rowinfo_hit, andThen_ok, get_rowinfo_hit, andThen_ok]
    simp only [Bool.or_self, eq_self_iff_true, if_true]
    rw [get_tupledata_encTuples _ _ h2, andThen_ok, andThen_ok,
      get_bool_encBool, andThen_ok, get_tupledata_encTuples _ _ h4, andThen_ok]

theorem parseDelete_enc (rid : Nat) (key old : Bool) (row : List Tuple)
    (extra : Buffer) (h1 : rid < 256 ^ 4) (h2 : wfRow row = true)
    (h3 : row.length < 19200) :
    parseDelete (beBytes 4 rid ++ (encMarker key 75 ++ (encMarker old 79 ++
      (encTuples row ++ extra)))) = .ok (.delete ⟨rid, key, old, row⟩) := by
  have hK : row.length / 256 % 256 ≠ 75 := by omega
  have hO : row.length / 256 % 256 ≠ 79 := by omega
  simp only [parseDelete]
  rw [readBe_beBytes_lt 4 _ _ h1, andThen_ok]
  cases key <;> cases old <;>
    simp only [encMarker, Bool.false_eq_true, if_false, if_true,
      eq_self_iff_true, List.nil_append, List.cons_append,
      List.singleton_append]
  · rw [get_rowinfo_encTuples_miss 75 row _ hK, andThen_ok,
      get_rowinfo_encTuples_miss 79 row _ hO, andThen_ok,
      get_tupledata_encTuples _ _ h2, andThen_ok]
  · rw [get_rowinfo_miss 75 79 _ (by decide), andThen_ok, get_rowinfo_hit,
      andThen_ok, get_tupledata_encTuples _ _ h2, andThen_ok]
  · rw [get_rowinfo_hit, andThen_ok,
      get_rowinfo_encTuples_miss 79 row _ hO, andThen_ok,
      get_tupledata_encTuples _ _ h2, andThen_ok]
  · rw [get_rowinfo_hit, andThen_ok, get_rowinfo_hit, andThen_ok,
      get_tupledata_encTuples _ _ h2, andThen_ok]

theorem readBe_two (a b : Nat) (r : Buffer) :
    readBe 2 (a :: (b :: r)) = .ok (a * 256 + b, r) := by
  rw [readBe_cons, readBe_cons]
  norm_num [readBe]

theorem parse_tag_B (buf : Buffer) : parse (66 :: buf) = parseBegin buf := by
  simp [parse]

theorem parse_tag_C (buf : Buffer) : parse (67 :: buf) = parseCommit buf := by
  simp [parse]

theorem parse_tag_O (buf : Buffer) : parse (79 :: buf) = parseOrigin buf := by
  simp [parse]

theorem parse_tag_R (buf : Buffer) : parse (82 :: buf) = parseRelation buf := by
  simp [parse]

theorem parse_tag_Y (buf : Buffer) : parse (89 :: buf) = parseType buf := by
  simp [parse]

theorem parse_tag_I (buf : Buffer) : parse (73 :: buf) = parseInsert buf := by
  simp [parse]

theorem parse_tag_U (buf : Buffer) : parse (85 :: buf) = parseUpdate buf := by
  simp [parse]

theorem parse_tag_D (buf : Buffer) : parse (68 :: buf) = parseDelete buf := by
  simp [parse]

/-- Full round trip: a well-formed message value, encoded per the field
table of spec section 4.2, decodes back to itself (any trailing bytes
beyond the message are ignored by the decoder). -/
theorem parse_encode (m : LogicalReplicationMessage) (extra : Buffer)
    (h : wfMsg m = true) :
    parse (encode m ++ extra) = .ok m := by
  cases m with
  | begin b =>
    obtain ⟨lsn, ts, xid⟩ := b
    simp only [wfMsg, Bool.and_eq_true, decide_eq_true_eq] at h
    obtain ⟨h1, h2, h3, h4⟩ := h
    simp only [encode, List.cons_append, List.append_assoc]
    rw [parse_tag_B]
    exact parseBegin_enc lsn ts xid extra h1 h2 h3 h4
  | commit c =>
    obtain ⟨flags, lsn, tlsn, ts⟩ := c
    simp only [wfMsg, Bool.and_eq_true, decide_eq_true_eq] at h
    obtain ⟨h0, h1, h2, h3⟩ := h
    simp only [encode, List.cons_append, List.append_assoc]
    rw [parse_tag_C]
    exact parseCommit_enc flags lsn tlsn ts extra h0 h1 h2 h3
  | origin o =>
    obtain ⟨lsn, name⟩ := o
    simp only [wfMsg, Bool.and_eq_true, decide_eq_true_eq] at h
    obtain ⟨h1, h2⟩ := h
    simp only [encode, List.cons_append, List.append_assoc]
    rw [parse_tag_O]
    exact parseOrigin_enc lsn name extra h1 h2
  | relation r =>
    obtain ⟨id, ns, name, replica, cols⟩ := r
    simp only [wfMsg, Bool.and_eq_true, decide_eq_true_eq] at h
    obtain ⟨h1, h2, h3, h4, h5⟩ := h
    simp only [encode, List.cons_append, List.append_assoc]
    rw [parse_tag_R]
    exact parseRelation_enc id replica ns name cols extra h1 h2 h3 h4 h5
  | typeMsg t =>
    obtain ⟨id, ns, name⟩ := t
    simp only [wfMsg, Bool.and_eq_true, decide_eq_true_eq] at h
    obtain ⟨h1, h2, h3⟩ := h
    simp only [encode, List.cons_append, List.append_assoc]
    rw [parse_tag_Y]
    exact parseType_enc id ns name extra h1 h2 h3
  | insert i =>
    obtain ⟨rid, nw, row⟩ := i
    simp only [wfMsg, Bool.and_eq_true, decide_eq_true_eq] at h
    obtain ⟨h1, h2⟩ := h
    simp only [encode, List.cons_append, List.append_assoc]
    rw [parse_tag_I]
    exact parseInsert_enc rid nw row extra h1 h2
  | update u =>
    obtain ⟨rid, old, key, nw, orow, row⟩ := u
    simp only [wfMsg, Bool.and_eq_true, decide_eq_true_eq, beq_iff_eq] at h
    obtain ⟨h1, hor, h4⟩ := h
    subst hor
    simp only [encode, List.cons_append, List.append_assoc]
    rw [parse_tag_U]
    exact parseUpdate_enc rid key old nw [] row extra h1 (by decide) (by decide) h4
  | delete d =>
    obtain ⟨rid, key, old, row⟩ := d
    simp only [wfMsg, Bool.and_eq_true, decide_eq_true_eq] at h
    obtain ⟨h1, h2, h3⟩ := h
    simp only [encode, List.cons_append, List.append_assoc]
    rw [parse_tag_D]
    exact parseDelete_enc rid key old row extra h1 h2 h3

/-! ### The marker / count-byte collision for Delete

A Delete row of exactly 19200 null tuples has a 2-byte count `0x4B00`,
whose high byte `0x4B` is the "K" marker byte.  With no markers on the
wire, the decoder consumes that count byte as a key marker, then reads a
corrupted row.  These lemmas evaluate the decoder on that buffer. -/

theorem flatten_map_encTuple_null (n : Nat) :
    ((List.replicate n (⟨110, none⟩ : Tuple)).map encTuple).flatten =
      List.replicate n 110 := by
  induction n with
  | zero => rfl
  | succ k ih => simp [List.replicate_succ, encTuple, ih]

theorem readTuples_replicate_null (n m : Nat) (h : n ≤ m) :
    readTuples n (List.replicate m 110) =
      .ok (List.replicate n ⟨110, none⟩, List.replicate (m - n) 110) := by
  induction n generalizing m with
  | zero => simp [readTuples]
  | succ k ih =>
    obtain ⟨m2, rfl⟩ : ∃ m2, m = m2 + 1 := ⟨m - 1, by omega⟩
    rw [List.replicate_succ, readTuples_cons_110, ih m2 (by omega)]
    simp [List.replicate_succ, Nat.succ_sub_succ]

theorem get_tupledata_cons (a b : Nat) (r : Buffer) :
    get_tupledata (a :: (b :: r)) = readTuples (a * 256 + b) r := by
  simp only [get_tupledata, readBe_two]

theorem parse_delete_collision_eq :
    parse (encode (.delete ⟨0, false, false, List.replicate 19200 ⟨110, none⟩⟩)) =
      .ok (.delete ⟨0, true, false, List.replicate 110 ⟨110, none⟩⟩) := by
  simp only [encode, encMarker, Bool.false_eq_true, if_false]
  rw [List.nil_append, List.nil_append, parse_tag_D]
  simp only [parseDelete]
  rw [readBe_beBytes_lt 4 0 _ (by norm_num), andThen_ok, encTuples_cons,
    List.length_replicate, flatten_map_encTuple_null,
    show (19200 : Nat) / 256 % 256 = 75 from by norm_num,
    show (19200 : Nat) % 256 = 0 from by norm_num]
  rw [get_rowinfo_hit, andThen_ok, get_rowinfo_miss 79 0 _ (by decide), andThen_ok]
  rw [show (19200 : Nat) = 19199 + 1 from by norm_num, List.replicate_succ,
    get_tupledata_cons, show (0 : Nat) * 256 + 110 = 110 from by norm_num,
    readTuples_replicate_null 110 19199 (by norm_num),
    show (19199 : Nat) - 110 = 19089 from by norm_num, andThen_ok]

/-! ### Claims -/

/-- C1: the spec requires every primitive reader to report insufficient
input as a uniform decode error returned to the caller, with no operation
terminating the process.  The code instead panics (aborts the process)
from `bytes::Buf` underrun, the `assert!` in `get_rowinfo`, and friends --
and `get_string` on an empty buffer silently succeeds with an empty
string rather than failing at all.  The only error the caller can ever
see returned is the unknown-message-type error of `parse`. -/
theorem c1_truncation_panics :
    get_bool [] = .error (.panicked .bufUnderflow) ∧
    get_timestamp [] = .error (.panicked .bufUnderflow) ∧
    get_rowinfo 75 [] = .error (.panicked .assertFailed) ∧
    get_tupledata [] = .error (.panicked .bufUnderflow) ∧
    get_columns [] = .error (.panicked .bufUnderflow) ∧
    get_string [] = .ok ([], []) :=
  ⟨rfl, rfl, rfl, rfl, rfl, rfl⟩

/-- C2: the spec says `get_string` fails when no zero terminator occurs
before the end of the buffer.  The code instead calls `read_until` (which
happily stops at end of input) and then pops the last collected byte as if
it were the terminator: on the two-byte buffer "ab" it silently succeeds,
returning "a" and consuming the whole buffer. -/
theorem c2_missing_terminator_succeeds :
    get_string [97, 98] = .ok ([97], []) := rfl

/-- C3: for every Update wire buffer carrying a "K" (75) or "O" (79)
marker, parse decodes the legacy old-row payload after the markers and
discards it, producing `old_row = none`, and then decodes the new flag
and the new row, in that order. -/
theorem c3_update_discards_old_row (rid : Nat) (key old nw : Bool)
    (oldRow row : List Tuple) (extra : Buffer)
    (h1 : rid < 256 ^ 4) (h2 : wfRow oldRow = true) (h3 : oldRow.length < 19200)
    (h4 : wfRow row = true) (hm : (key || old) = true) :
    parse (85 :: (beBytes 4 rid ++ (encMarker key 75 ++ (encMarker old 79 ++
      (encTuples oldRow ++ (encBool nw ++ (encTuples row ++ extra))))))) =
      .ok (.update ⟨rid, old, key, nw, none, row⟩) := by
  rw [parse_tag_U]
  have h := parseUpdate_enc rid key old nw oldRow row extra h1 h2 h3 h4
  simp only [hm, eq_self_iff_true, if_true] at h
  exact h

/-- Witness for C3 at a concrete buffer: key marker present, one null
tuple in the discarded payload. -/
theorem c3_update_witness :
    parse (85 :: (beBytes 4 1 ++ (encMarker true 75 ++ (encMarker false 79 ++
      (encTuples [⟨110, none⟩] ++ (encBool true ++ (encTuples [] ++ []))))))) =
      .ok (.update ⟨1, false, true, true, none, []⟩) :=
  c3_update_discards_old_row 1 true false true [⟨110, none⟩] [] []
    (by norm_num) (by decide) (by decide) (by decide) rfl

/-- C4: a non-empty buffer whose first byte is none of the eight tags is
rejected with an unknown-message-type error carrying that byte, whatever
the trailing bytes; no partial message is produced. -/
theorem c4_unknown_tag (b : Nat) (rest : Buffer)
    (h : ¬(b = 66 ∨ b = 67 ∨ b = 79 ∨ b = 82 ∨ b = 89 ∨ b = 73 ∨ b = 85 ∨
      b = 68)) :
    parse (b :: rest) = .error (.unknownMessageType b) := by
  push_neg at h
  obtain ⟨n1, n2, n3, n4, n5, n6, n7, n8⟩ := h
  simp [parse, n1, n2, n3, n4, n5, n6, n7, n8]

/-- Witness for C4: the tag "Z" (90) with no trailing bytes. -/
theorem c4_unknown_tag_witness :
    parse [90] = .error (.unknownMessageType 90) :=
  c4_unknown_tag 90 [] (by decide)

/-- C5 counterexample: round-tripping does NOT hold for every message
value.  A Delete with no markers and a row of exactly 19200 entries has
count bytes `0x4B 0x00`; the decoder mistakes the high count byte for the
"K" marker, so the decoded message has `key = true` and a 110-entry row --
not the encoded value. -/
theorem c5_delete_roundtrip_fails :
    parse (encode (.delete ⟨0, false, false, List.replicate 19200 ⟨110, none⟩⟩)) =
      .ok (.delete ⟨0, true, false, List.replicate 110 ⟨110, none⟩⟩) ∧
    parse (encode (.delete ⟨0, false, false, List.replicate 19200 ⟨110, none⟩⟩)) ≠
      .ok (.delete ⟨0, false, false, List.replicate 19200 ⟨110, none⟩⟩) := by
  refine ⟨parse_delete_collision_eq, ?_⟩
  rw [parse_delete_collision_eq]
  intro h
  have hkey := congrArg
    (fun x => match x with
      | Except.ok (LogicalReplicationMessage.delete d) => d.key
      | _ => true) h
  exact Bool.noConfusion hkey

/-- C5 (amended): every well-formed message value -- fields within their
wire widths, strings valid UTF-8 without embedded zero, Update retaining
no old row, Delete row count staying clear of the marker bytes -- encoded
per the field table of spec section 4.2, decodes back to exactly itself. -/
theorem c5_roundtrip (m : LogicalReplicationMessage) (h : wfMsg m = true) :
    parse (encode m) = .ok m := by
  have hx := parse_encode m [] h
  rw [List.append_nil] at hx
  exact hx

/-- Witness for C5: the Begin example of spec section 8, buffer
`[66 ("B"), lsn = 1000 big endian, timestamp = 0 microseconds, xid = 42]`,
decodes to Begin with lsn 1000, the epoch timestamp, xid 42. -/
theorem c5_roundtrip_witness :
    parse [66, 0, 0, 0, 0, 0, 0, 3, 232, 0, 0, 0, 0, 0, 0, 0, 0,
        0, 0, 0, 42] =
      .ok (.begin ⟨1000, pgEpochMicros, 42⟩) := by
  have h := c5_roundtrip (.begin ⟨1000, pgEpochMicros, 42⟩) (by decide)
  have he : encode (.begin ⟨1000, pgEpochMicros, 42⟩) =
      [66, 0, 0, 0, 0, 0, 0, 3, 232, 0, 0, 0, 0, 0, 0, 0, 0,
        0, 0, 0, 42] := by decide
  rw [he] at h
  exact h

/-- C6 counterexample: `get_timestamp` does not return epoch + N for
every 8-byte input.  At N = 2^64 - 1 the sum lands beyond the maximum
instant of the host time representation and the `DateTime + Duration`
addition panics instead of returning a value. -/
theorem c6_timestamp_overflow :
    get_timestamp [255, 255, 255, 255, 255, 255, 255, 255] =
      .error (.panicked .dateTimeOverflow) ∧
    get_timestamp [255, 255, 255, 255, 255, 255, 255, 255] ≠
      .ok (pgEpochMicros + 18446744073709551615, []) := by
  constructor
  · rfl
  · intro h
    have he : get_timestamp [255, 255, 255, 255, 255, 255, 255, 255] =
        .error (.panicked .dateTimeOverflow) := rfl
    rw [he] at h
    exact Except.noConfusion h

/-- C6 (amended): for every 8-byte big-endian value N that keeps
epoch + N inside the host time range, `get_timestamp` returns exactly the
epoch 2000-01-01T00:00:00Z plus N microseconds, with no rounding; in
particular N = 0 yields exactly the epoch (see the witness). -/
theorem c6_timestamp_exact (n : Nat) (rest : Buffer) (h1 : n < 256 ^ 8)
    (h2 : pgEpochMicros + n ≤ chronoMaxMicros) :
    get_timestamp (beBytes 8 n ++ rest) = .ok (pgEpochMicros + n, rest) := by
  simp only [get_timestamp, readBe_beBytes_lt 8 _ _ h1, if_pos h2]

/-- Witness for C6: N = 0 yields exactly the epoch instant. -/
theorem c6_timestamp_witness :
    get_timestamp [0, 0, 0, 0, 0, 0, 0, 0] = .ok (pgEpochMicros, []) := by
  have h := c6_timestamp_exact 0 [] (by norm_num) (by decide)
  have he : beBytes 8 0 ++ ([] : Buffer) = [0, 0, 0, 0, 0, 0, 0, 0] := by decide
  rw [he, Nat.add_zero] at h
  exact h

theorem readTuples_cons_bad (k flag : Nat) (r : Buffer)
    (h110 : flag ≠ 110) (h117 : flag ≠ 117) (h116 : flag ≠ 116) :
    readTuples (k + 1) (flag :: r) = .error (.panicked (.unknownFlag flag)) := by
  simp [readTuples, h110, h117, h116]

/-- C7: `get_tupledata` with a 16-bit count of zero returns the empty
sequence; with a non-zero count and a first flag byte outside
{110 "n", 117 "u", 116 "t"} it fails with an unrecognized-flag failure
carrying that byte, and -- as the quantification over `rest` shows -- the
outcome never depends on any byte after the offending flag. -/
theorem c7_tupledata (chi clo flag : Nat) (rest : Buffer) :
    get_tupledata (0 :: (0 :: rest)) = .ok ([], rest) ∧
    (¬(chi = 0 ∧ clo = 0) → flag ≠ 110 → flag ≠ 117 → flag ≠ 116 →
      get_tupledata (chi :: (clo :: (flag :: rest))) =
        .error (.panicked (.unknownFlag flag))) := by
  constructor
  · rw [get_tupledata_cons]
    norm_num [readTuples]
  · intro hc h110 h117 h116
    obtain ⟨k, hk⟩ : ∃ k, chi * 256 + clo = k + 1 :=
      ⟨chi * 256 + clo - 1, by omega⟩
    rw [get_tupledata_cons, hk, readTuples_cons_bad k flag _ h110 h117 h116]

/-- Witness for C7: count zero yields the empty row; count 1 with flag
byte 120 fails with the unrecognized-flag failure for 120. -/
theorem c7_tupledata_witness :
    get_tupledata [0, 0] = .ok ([], []) ∧
    get_tupledata [0, 1, 120] = .error (.panicked (.unknownFlag 120)) :=
  ⟨(c7_tupledata 0 0 120 []).1,
    (c7_tupledata 0 1 120 []).2 (by decide) (by decide) (by decide) (by decide)⟩

/-- C8: `get_rowinfo` on a non-empty buffer returns true and consumes
exactly the one matching byte when it equals the tag, returns false with
the cursor unmoved when it differs, and on an empty buffer fails (the
`assert!` aborts) rather than returning false. -/
theorem c8_rowinfo (tag b : Nat) (rest : Buffer) :
    get_rowinfo tag [] = .error (.panicked .assertFailed) ∧
    (b = tag → get_rowinfo tag (b :: rest) = .ok (true, rest)) ∧
    (b ≠ tag → get_rowinfo tag (b :: rest) = .ok (false, b :: rest)) := by
  refine ⟨rfl, fun h => ?_, fun h => get_rowinfo_miss tag b rest h⟩
  subst h
  exact get_rowinfo_hit b rest

/-- Witness for C8: tag "K" (75) hit consumes one byte; byte 79 misses
and leaves the buffer unchanged. -/
theorem c8_rowinfo_witness :
    get_rowinfo 75 [75, 7] = .ok (true, [7]) ∧
    get_rowinfo 75 [79] = .ok (false, [79]) :=
  ⟨(c8_rowinfo 75 75 [7]).2.1 rfl, (c8_rowinfo 75 79 []).2.2 (by decide)⟩

/-- C9 counterexample: `Relation::is_empty` is NOT "true iff every field
is default": a Relation whose namespace is the non-empty string "x"
(byte 120) but whose other fields are default still reports `is_empty =
true`, because the code never examines the namespace field. -/
theorem c9_is_empty_ignores_namespace :
    Relation.is_empty ⟨0, [120], [], 0, []⟩ = true ∧
    Relation.nspace ⟨0, [120], [], 0, []⟩ ≠ [] := by
  exact ⟨rfl, by decide⟩

/-- C9 (amended): `Relation::is_empty` returns true iff id, name, replica
and columns are all default; the namespace field is not examined. -/
theorem c9_is_empty_iff (r : Relation) :
    r.is_empty = true ↔
      (r.id = 0 ∧ r.name = [] ∧ r.replica = 0 ∧ r.columns = []) := by
  obtain ⟨id, ns, name, replica, cols⟩ := r
  simp [Relation.is_empty, and_assoc]

/-- C10: on the empty buffer, `parse` neither returns a decoded variant
nor any documented decode error: its very first action `src[0]` indexes
byte 0 unconditionally, which panics.  The outcome is the index panic --
a constructor distinct from the returned `unknownMessageType` error, so a
non-empty buffer is indeed an undocumented precondition. -/
theorem c10_empty_input :
    parse [] = .error (.panicked .indexOutOfBounds) := rfl

end Pg
